import Mathlib

/-!
# clouddns: a libdns provider for Google Cloud DNS

Shallow embedding of `provider.go`.

* The receiver `*Provider`, the remote DNS service and the sequence of calls
  made on the SDK are one explicit machine state (`State`); every method is a
  function from a state to a result and a new state.
* The imported packages (`google.golang.org/api/dns/v1`, `libdns`) are not
  part of the repository: what they compute is a parameter (`Deps`), an
  arbitrary function of an arbitrary remote state. Calls on them are assumed to
  return (a Go result pair), whatever the pair is.
* A Go `(value, error)` pair is a value with an `Option GoError`; a run-time
  panic of the adapter's own code is the `Outcome.panic` constructor.
-/

namespace Clouddns

/-! ## Go values -/

/-- A non-nil Go `error` value, by dynamic type: `*googleapi.Error` (the
status error the SDK builds from an HTTP response, with its `Code` and
`Message`), or a value of any other dynamic type (`fmt.Errorf`, `*url.Error`,
a JSON decoding error, ...), kept as its text. The SDK builds its status errors
with `&googleapi.Error{...}`, so a nil pointer of that type is not a value an
error holds here. -/
inductive GoError where
  | googleapi (Code : Int) (Message : String)
  | errorString (text : String)
  deriving DecidableEq, Repr

/-- What a call of one of the adapter's functions does: it returns the Go pair
`(value, err)`, or it panics. -/
inductive Outcome (α : Type) where
  | ret (value : α) (err : Option GoError)
  | panic (msg : String)
  deriving DecidableEq, Repr

/-- The type `time.Duration`: an `int64` count of nanoseconds. -/
abbrev Duration := Int

/-- The constant `time.Nanosecond`. -/
def Nanosecond : Duration := 1
/-- The constant `time.Microsecond`. -/
def Microsecond : Duration := 1000 * Nanosecond
/-- The constant `time.Millisecond`. -/
def Millisecond : Duration := 1000 * Microsecond
/-- The constant `time.Second`. -/
def Second : Duration := 1000 * Millisecond

/-- The conversion `int64(d)` of a `time.Duration`: `Duration` is declared as
`int64`, so the conversion keeps the value. -/
def int64 (d : Duration) : Int := d

/-- Go `append(xs, x)` on a slice that may be nil (`none`): the result is
never nil. -/
def goAppend {α : Type} (xs : Option (List α)) (x : α) : Option (List α) :=
  some (xs.getD [] ++ [x])

/-! ## Data model -/

/-- The struct `libdns.Record` (the fields the adapter reads, and the ID).
Slices of records do not distinguish nil from empty: no code path does. -/
structure Record where
  ID : String
  Type_ : String
  Name : String
  Value : String
  TTL : Duration
  deriving DecidableEq, Repr

/-- The struct `dns.ResourceRecordSet`, with the fields the adapter sets. -/
structure ResourceRecordSet where
  Type_ : String
  Name : String
  Rrdatas : List String
  Ttl : Int
  deriving DecidableEq, Repr

/-- The struct `dns.Change`, with the fields the adapter sets; a nil slice is
`none`. -/
structure Change where
  Additions : Option (List ResourceRecordSet)
  Deletions : Option (List ResourceRecordSet)
  deriving DecidableEq, Repr

/-- The struct `dns.ManagedZone`, with the fields the adapter reads. -/
structure ManagedZone where
  Name : String
  DnsName : String
  deriving DecidableEq, Repr

/-- An authenticated `dns.Service`, identified by a token. -/
structure Service where
  handle : Nat
  deriving DecidableEq, Repr

/-- The type `option.ClientOption`; the adapter only uses
`option.WithCredentialsFile`. -/
inductive ClientOption where
  | WithCredentialsFile (filename : String)
  deriving DecidableEq, Repr

/-- The struct `Provider`; `service` is a pointer, nil until a session is
stored. -/
structure Provider where
  Project : String
  JsonKeyFile : String
  service : Option Service
  deriving DecidableEq, Repr

/-! ## The imported packages and the machine state -/

/-- One call on the SDK, with its arguments. -/
inductive Call where
  | NewService (opts : List ClientOption)
  | ManagedZonesList (service : Option Service) (project dnsName : String) (maxResults : Int)
  | ChangesCreate (service : Option Service) (project managedZone : String) (change : Change)
  deriving DecidableEq, Repr

/-- The imported packages, over a remote state `σ`.
* `NewService opts` is `dns.NewService(ctx, opts...)`: the pair `(service, err)`.
* `ManagedZonesList service project dnsName maxResults` is
  `dns.NewManagedZonesService(service).List(project).DnsName(dnsName).MaxResults(maxResults).Do()`:
  an error, or the response's `ManagedZones`, a slice of pointers: an element
  may be nil (`none`).
* `ChangesCreate service project managedZone change` is
  `dns.NewChangesService(service).Create(project, managedZone, &change).Do()`:
  the adapter drops the returned change and keeps the error.
* `AbsoluteName` is `libdns.AbsoluteName`. -/
structure Deps (σ : Type) where
  NewService : List ClientOption → σ → (Option Service × Option GoError) × σ
  ManagedZonesList : Option Service → String → String → Int → σ →
    Except GoError (List (Option ManagedZone)) × σ
  ChangesCreate : Option Service → String → String → Change → σ → Option GoError × σ
  AbsoluteName : String → String → String

/-- The machine state: the receiver `*Provider`, the remote service, and the
calls made on the SDK so far, oldest first. -/
structure State (σ : Type) where
  provider : Provider
  remote : σ
  calls : List Call

/-- The call `dns.NewService(ctx, opts...)`, recorded. -/
def dnsNewService {σ : Type} (d : Deps σ) (opts : List ClientOption) (s : State σ) :
    (Option Service × Option GoError) × State σ :=
  let r := d.NewService opts s.remote
  (r.1, { s with remote := r.2, calls := s.calls ++ [Call.NewService opts] })

/-- The call `managedZonesService.List(project).DnsName(zone).MaxResults(n).Do()`
on the service `service`, recorded. -/
def managedZonesListDo {σ : Type} (d : Deps σ) (service : Option Service)
    (project dnsName : String) (maxResults : Int) (s : State σ) :
    Except GoError (List (Option ManagedZone)) × State σ :=
  let r := d.ManagedZonesList service project dnsName maxResults s.remote
  (r.1, { s with remote := r.2,
                 calls := s.calls ++ [Call.ManagedZonesList service project dnsName maxResults] })

/-- The call `changesService.Create(project, managedZone, &change).Do()` on the
service `service`, recorded. -/
def changesCreateDo {σ : Type} (d : Deps σ) (service : Option Service)
    (project managedZone : String) (change : Change) (s : State σ) :
    Option GoError × State σ :=
  let r := d.ChangesCreate service project managedZone change s.remote
  (r.1, { s with remote := r.2,
                 calls := s.calls ++ [Call.ChangesCreate service project managedZone change] })

/-! ## provider.go -/

/-- The method `Provider.NewSession`. -/
def NewSession {σ : Type} (d : Deps σ) (s : State σ) : Option GoError × State σ :=
  if s.provider.JsonKeyFile ≠ "" then
    match dnsNewService d [ClientOption.WithCredentialsFile s.provider.JsonKeyFile] s with
    | ((_, some err), s1) => (some err, s1)
    | ((service, none), s1) =>
      (none, { s1 with provider := { s1.provider with service := service } })
  else
    match dnsNewService d [] s with
    -- `if err == nil { return err }`
    | ((_, none), s1) => (none, s1)
    | ((service, some _), s1) =>
      (none, { s1 with provider := { s1.provider with service := service } })

/-- The method `Provider.getZone`: the Go pair `(*dns.ManagedZone, error)`.
The last return is `managedZones.ManagedZones[0]`, of a slice that is not
empty: the pointer is returned as it is, nil or not. -/
def getZone {σ : Type} (d : Deps σ) (zone : String) (s : State σ) :
    (Option ManagedZone × Option GoError) × State σ :=
  match managedZonesListDo d s.provider.service s.provider.Project zone 1 s with
  | (Except.error err, s1) => ((none, some err), s1)
  | (Except.ok managedZones, s1) =>
    if managedZones.length = 0 then
      ((none, some (GoError.errorString "No ManagedZone found!")), s1)
    else
      ((managedZones.headD none, none), s1)

/-- The text of the panic of a nil pointer dereference. -/
def nilDereference : String :=
  "runtime error: invalid memory address or nil pointer dereference"

/-- The text of the panic of a failed type assertion `err.(*googleapi.Error)`. -/
def interfaceConversion : String :=
  "interface conversion: error is not *googleapi.Error"

/-- The method `Provider.createRecords`. A nil `managedZone` is dereferenced
before the change-set is submitted. -/
def createRecords {σ : Type} (d : Deps σ) (managedZone : Option ManagedZone)
    (records : List Record) (s : State σ) : Outcome (List Record) × State σ :=
  match managedZone with
  | none => (Outcome.panic nilDereference, s)
  | some mz =>
    let start : Change × List Record := ({ Additions := some [], Deletions := none }, [])
    let loop := records.foldl (fun (acc : Change × List Record) record =>
      let newRecord : ResourceRecordSet :=
        { Type_ := record.Type_
          Name := d.AbsoluteName record.Name mz.DnsName
          Rrdatas := [record.Value]
          Ttl := int64 record.TTL }
      ({ acc.1 with Additions := goAppend acc.1.Additions newRecord }, acc.2 ++ [record])) start
    match changesCreateDo d s.provider.service s.provider.Project mz.Name loop.1 s with
    | (some err, s1) => (Outcome.ret [] (some err), s1)
    | (none, s1) => (Outcome.ret loop.2 none, s1)

/-- The method `Provider.GetRecords`. -/
def GetRecords {σ : Type} (_zone : String) (s : State σ) : Outcome (List Record) × State σ :=
  (Outcome.ret [] (some (GoError.errorString "TODO: not implemented1")), s)

/-- The method `Provider.deleteRecords`. A nil `managedZone` is dereferenced
before the change-set is submitted. -/
def deleteRecords {σ : Type} (d : Deps σ) (managedZone : Option ManagedZone)
    (records : List Record) (s : State σ) : Outcome (List Record) × State σ :=
  match managedZone with
  | none => (Outcome.panic nilDereference, s)
  | some mz =>
    let start : Change × List Record := ({ Additions := none, Deletions := some [] }, [])
    let loop := records.foldl (fun (acc : Change × List Record) record =>
      let deleteRecord : ResourceRecordSet :=
        { Type_ := record.Type_
          Name := d.AbsoluteName record.Name mz.DnsName
          Rrdatas := [record.Value]
          Ttl := int64 record.TTL }
      ({ acc.1 with Deletions := goAppend acc.1.Deletions deleteRecord }, acc.2 ++ [record])) start
    match changesCreateDo d s.provider.service s.provider.Project mz.Name loop.1 s with
    | (some err, s1) => (Outcome.ret [] (some err), s1)
    | (none, s1) => (Outcome.ret loop.2 none, s1)

/-- The method `Provider.AppendRecords`. In
`err != nil && err.(*googleapi.Error).Code == 409` the type assertion is the
one-result form: it panics on a non-nil error of another dynamic type. -/
def AppendRecords {σ : Type} (d : Deps σ) (zone : String) (records : List Record)
    (s : State σ) : Outcome (List Record) × State σ :=
  match getZone d zone s with
  | ((_, some err), s1) => (Outcome.ret [] (some err), s1)
  | ((managedZone, none), s1) =>
    match createRecords d managedZone records s1 with
    | (Outcome.panic msg, s2) => (Outcome.panic msg, s2)
    | (Outcome.ret createdRecords none, s2) => (Outcome.ret createdRecords none, s2)
    | (Outcome.ret _ (some (GoError.errorString _)), s2) =>
      (Outcome.panic interfaceConversion, s2)
    | (Outcome.ret _ (some (GoError.googleapi Code Message)), s2) =>
      if Code = 409 then
        -- records exists remove first then call again
        match deleteRecords d managedZone records s2 with
        | (Outcome.panic msg, s3) => (Outcome.panic msg, s3)
        | (Outcome.ret _ (some err), s3) => (Outcome.ret [] (some err), s3)
        | (Outcome.ret _ none, s3) =>
          match createRecords d managedZone records s3 with
          | (Outcome.panic msg, s4) => (Outcome.panic msg, s4)
          | (Outcome.ret _ (some err), s4) => (Outcome.ret [] (some err), s4)
          | (Outcome.ret createdRecords none, s4) => (Outcome.ret createdRecords none, s4)
      else
        (Outcome.ret [] (some (GoError.googleapi Code Message)), s2)

/-- The method `Provider.SetRecords`. -/
def SetRecords {σ : Type} (_zone : String) (_records : List Record) (s : State σ) :
    Outcome (List Record) × State σ :=
  (Outcome.ret [] (some (GoError.errorString "TODO: SetRecords not implemented")), s)

/-- The method `Provider.DeleteRecords`. -/
def DeleteRecords {σ : Type} (d : Deps σ) (zone : String) (records : List Record)
    (s : State σ) : Outcome (List Record) × State σ :=
  match getZone d zone s with
  | ((_, some err), s1) => (Outcome.ret [] (some err), s1)
  | ((managedZone, none), s1) =>
    match deleteRecords d managedZone records s1 with
    | (Outcome.panic msg, s2) => (Outcome.panic msg, s2)
    | (Outcome.ret _ (some err), s2) => (Outcome.ret [] (some err), s2)
    | (Outcome.ret deletedRecords none, s2) => (Outcome.ret deletedRecords none, s2)

/-! ## The specification's wording -/

/-- The resource-record-set of a record, in the specification's words: the
record's type, its name made absolute against the zone's root, a
single-element value list, and the TTL. -/
def specResourceRecordSet {σ : Type} (d : Deps σ) (zone : ManagedZone) (record : Record) :
    ResourceRecordSet :=
  { Type_ := record.Type_
    Name := d.AbsoluteName record.Name zone.DnsName
    Rrdatas := [record.Value]
    Ttl := record.TTL }

/-- The change-set of the specification's record creation: one addition per
record, nothing else. -/
def additionSet {σ : Type} (d : Deps σ) (zone : ManagedZone) (records : List Record) : Change :=
  { Additions := some (records.map (specResourceRecordSet d zone)), Deletions := none }

/-- The change-set of the specification's record deletion: one deletion per
record, nothing else. -/
def deletionSet {σ : Type} (d : Deps σ) (zone : ManagedZone) (records : List Record) : Change :=
  { Additions := none, Deletions := some (records.map (specResourceRecordSet d zone)) }

/-! ## Observing the calls -/

/-- The change-sets submitted by a sequence of calls, oldest first. -/
def changeSets : List Call → List Change
  | [] => []
  | Call.ChangesCreate _ _ _ change :: rest => change :: changeSets rest
  | _ :: rest => changeSets rest

/-- The number of addition change-sets (the `Additions` slice is non-nil) in
a sequence of calls. -/
def additionCount (calls : List Call) : Nat :=
  ((changeSets calls).filter (fun change => change.Additions.isSome)).length

/-- The number of deletion change-sets (the `Deletions` slice is non-nil) in
a sequence of calls. -/
def deletionCount (calls : List Call) : Nat :=
  ((changeSets calls).filter (fun change => change.Deletions.isSome)).length

/-- The zone lookup's call on the SDK. -/
def lookupCall {σ : Type} (zone : String) (s : State σ) : Call :=
  Call.ManagedZonesList s.provider.service s.provider.Project zone 1

/-- The submission of `change` to the zone `zone` by the provider of `s`. -/
def submitCall {σ : Type} (zone : ManagedZone) (change : Change) (s : State σ) : Call :=
  Call.ChangesCreate s.provider.service s.provider.Project zone.Name change

/-! ## Example data -/

/-- A scripted SDK: service construction answers `newService`, the zone
listing answers `zones`, and the n-th change-set submission (from 0) gets the
n-th entry of `answers` (acceptance past the end); the remote state is the
number of change-sets submitted. Names are joined to the zone by a dot. -/
def scriptedDeps (newService : Option Service × Option GoError)
    (zones : Except GoError (List (Option ManagedZone))) (answers : List (Option GoError)) :
    Deps Nat where
  NewService := fun _ n => (newService, n)
  ManagedZonesList := fun _ _ _ _ n => (zones, n)
  ChangesCreate := fun _ _ _ _ n => ((answers.get? n).join, n + 1)
  AbsoluteName := fun name zone => name ++ "." ++ zone

/-- The zone `example.com.` as the provider describes it. -/
def exampleZone : ManagedZone := { Name := "example-com", DnsName := "example.com." }

/-- The record `www A 1.2.3.4` with a TTL of 300 seconds. -/
def wwwRecord : Record :=
  { ID := "", Type_ := "A", Name := "www", Value := "1.2.3.4", TTL := 300 * Second }

/-- A provider with a session and no credentials file, before any call. -/
def startState : State Nat :=
  { provider := { Project := "my-project", JsonKeyFile := "", service := some { handle := 1 } }
    remote := 0
    calls := [] }

/-- A provider without a session, configured with the credentials file `path`. -/
def freshState (path : String) : State Nat :=
  { provider := { Project := "my-project", JsonKeyFile := path, service := none }
    remote := 0
    calls := [] }

/-- The provider's conflict status. -/
def conflict : GoError := GoError.googleapi 409 "alreadyExists"

/-- The provider's answer to a deletion that does not match. -/
def notFound : GoError := GoError.googleapi 404 "notFound"

/-- A transport failure: no HTTP response, so no `*googleapi.Error`. -/
def connectionRefused : GoError := GoError.errorString "dial tcp: connection refused"

/-- An SDK that lists `example.com.`, answers the first change-set with the
conflict status and the second with status 404. -/
def rejectedDeletionDeps : Deps Nat :=
  scriptedDeps (none, none) (Except.ok [some exampleZone]) [some conflict, some notFound]

/-- An SDK that lists `example.com.`, answers the first change-set with the
conflict status, accepts the second and answers the third with the conflict
status again. -/
def secondConflictDeps : Deps Nat :=
  scriptedDeps (none, none) (Except.ok [some exampleZone]) [some conflict, none, some conflict]

/-- An SDK that lists `example.com.` and cannot reach the service for the first
change-set. -/
def refusedDeps : Deps Nat :=
  scriptedDeps (none, none) (Except.ok [some exampleZone]) [some connectionRefused]

/-- The SDK's failure to find ambient credentials. -/
def credentialsError : GoError :=
  GoError.errorString "google: could not find default credentials"

/-- An SDK whose service construction fails. -/
def noCredentialsDeps : Deps Nat :=
  scriptedDeps (none, some credentialsError) (Except.ok [some exampleZone]) []

/-- An SDK whose service construction succeeds, with the handle 7. -/
def sessionDeps : Deps Nat :=
  scriptedDeps (some { handle := 7 }, none) (Except.ok [some exampleZone]) []

/-- An SDK whose listing holds one element, a nil pointer. -/
def nilZoneDeps : Deps Nat := scriptedDeps (none, none) (Except.ok [none]) []

/-- The state after the zone lookup of `example.com.`. -/
def afterLookup (d : Deps Nat) : State Nat := (getZone d "example.com." startState).2

/-- The state after the lookup and the first creation of `www`. -/
def afterCreate (d : Deps Nat) : State Nat :=
  (createRecords d (some exampleZone) [wwwRecord] (afterLookup d)).2

/-- The state after the lookup, the first creation and the deletion of `www`. -/
def afterDelete (d : Deps Nat) : State Nat :=
  (deleteRecords d (some exampleZone) [wwwRecord] (afterCreate d)).2

/-- The state after the lookup, the first creation, the deletion and the second
creation of `www`. -/
def afterRetry (d : Deps Nat) : State Nat :=
  (createRecords d (some exampleZone) [wwwRecord] (afterDelete d)).2

/-! ## Lemmas on the helpers -/

theorem createLoop_eq (f : Record → ResourceRecordSet) (records : List Record)
    (adds : List ResourceRecordSet) (dels : Option (List ResourceRecordSet))
    (done : List Record) :
    records.foldl (fun (acc : Change × List Record) record =>
      ({ acc.1 with Additions := goAppend acc.1.Additions (f record) }, acc.2 ++ [record]))
      ({ Additions := some adds, Deletions := dels }, done)
    = ({ Additions := some (adds ++ records.map f), Deletions := dels }, done ++ records) := by
  induction records generalizing adds done with
  | nil => simp
  | cons r rest ih =>
    have h := ih (adds ++ [f r]) (done ++ [r])
    simpa [goAppend] using h

theorem deleteLoop_eq (f : Record → ResourceRecordSet) (records : List Record)
    (adds : Option (List ResourceRecordSet)) (dels : List ResourceRecordSet)
    (done : List Record) :
    records.foldl (fun (acc : Change × List Record) record =>
      ({ acc.1 with Deletions := goAppend acc.1.Deletions (f record) }, acc.2 ++ [record]))
      ({ Additions := adds, Deletions := some dels }, done)
    = ({ Additions := adds, Deletions := some (dels ++ records.map f) }, done ++ records) := by
  induction records generalizing dels done with
  | nil => simp
  | cons r rest ih =>
    have h := ih (dels ++ [f r]) (done ++ [r])
    simpa [goAppend] using h

/-- What `createRecords` does on a zone descriptor: it submits the addition
set, and echoes the records when the provider accepts it. -/
theorem createRecords_some {σ : Type} (d : Deps σ) (mz : ManagedZone) (records : List Record)
    (s : State σ) :
    createRecords d (some mz) records s =
      (match (changesCreateDo d s.provider.service s.provider.Project mz.Name
          (additionSet d mz records) s).1 with
        | some err => Outcome.ret [] (some err)
        | none => Outcome.ret records none,
       (changesCreateDo d s.provider.service s.provider.Project mz.Name
          (additionSet d mz records) s).2) := by
  have h := createLoop_eq (fun record =>
      ({ Type_ := record.Type_
         Name := d.AbsoluteName record.Name mz.DnsName
         Rrdatas := [record.Value]
         Ttl := int64 record.TTL } : ResourceRecordSet)) records [] none []
  have hf : (fun record : Record =>
      ({ Type_ := record.Type_
         Name := d.AbsoluteName record.Name mz.DnsName
         Rrdatas := [record.Value]
         Ttl := int64 record.TTL } : ResourceRecordSet)) = specResourceRecordSet d mz := rfl
  rw [hf] at h
  simp only [createRecords, h, List.nil_append, additionSet]
  generalize changesCreateDo d _ _ _ _ s = r
  rcases r with ⟨_ | e, s1⟩ <;> rfl

/-- What `deleteRecords` does on a zone descriptor: it submits the deletion
set, and echoes the records when the provider accepts it. -/
theorem deleteRecords_some {σ : Type} (d : Deps σ) (mz : ManagedZone) (records : List Record)
    (s : State σ) :
    deleteRecords d (some mz) records s =
      (match (changesCreateDo d s.provider.service s.provider.Project mz.Name
          (deletionSet d mz records) s).1 with
        | some err => Outcome.ret [] (some err)
        | none => Outcome.ret records none,
       (changesCreateDo d s.provider.service s.provider.Project mz.Name
          (deletionSet d mz records) s).2) := by
  have h := deleteLoop_eq (fun record =>
      ({ Type_ := record.Type_
         Name := d.AbsoluteName record.Name mz.DnsName
         Rrdatas := [record.Value]
         Ttl := int64 record.TTL } : ResourceRecordSet)) records none [] []
  have hf : (fun record : Record =>
      ({ Type_ := record.Type_
         Name := d.AbsoluteName record.Name mz.DnsName
         Rrdatas := [record.Value]
         Ttl := int64 record.TTL } : ResourceRecordSet)) = specResourceRecordSet d mz := rfl
  rw [hf] at h
  simp only [deleteRecords, h, List.nil_append, deletionSet]
  generalize changesCreateDo d _ _ _ _ s = r
  rcases r with ⟨_ | e, s1⟩ <;> rfl

/-- The state after `getZone`: one listing call, on the stored service, for
at most one zone; the provider is untouched. -/
theorem getZone_state {σ : Type} (d : Deps σ) (zone : String) (s : State σ) :
    (getZone d zone s).2.calls = s.calls ++ [lookupCall zone s]
    ∧ (getZone d zone s).2.provider = s.provider := by
  unfold getZone
  rcases h : managedZonesListDo d s.provider.service s.provider.Project zone 1 s with ⟨r, s1⟩
  have hs : s1 = (managedZonesListDo d s.provider.service s.provider.Project zone 1 s).2 := by
    rw [h]
  have hc : s1.calls = s.calls ++ [lookupCall zone s] ∧ s1.provider = s.provider := by
    rw [hs]; exact ⟨rfl, rfl⟩
  cases r with
  | error err => exact hc
  | ok zones =>
    by_cases hz : zones.length = 0
    · simp only [hz, if_true]; exact hc
    · simp only [hz, if_false]; exact hc

/-- The state after a submission: one more call, the provider untouched. -/
theorem changesCreateDo_state {σ : Type} (d : Deps σ) (mz : ManagedZone) (change : Change)
    (s : State σ) :
    (changesCreateDo d s.provider.service s.provider.Project mz.Name change s).2.calls
        = s.calls ++ [submitCall mz change s]
    ∧ (changesCreateDo d s.provider.service s.provider.Project mz.Name change s).2.provider
        = s.provider :=
  ⟨rfl, rfl⟩

/-- A call of `createRecords` that returns: its value, and the state after. -/
theorem createRecords_returns {σ : Type} (d : Deps σ) (mz : ManagedZone) (R cr : List Record)
    (err : Option GoError) (s s1 : State σ)
    (h : createRecords d (some mz) R s = (Outcome.ret cr err, s1)) :
    cr = (if err = none then R else [])
    ∧ s1.calls = s.calls ++ [submitCall mz (additionSet d mz R) s]
    ∧ s1.provider = s.provider := by
  rw [createRecords_some] at h
  have h2 := (Prod.mk.inj h).2
  have h1 := (Prod.mk.inj h).1
  refine ⟨?_, ?_, ?_⟩
  · cases hr : (changesCreateDo d s.provider.service s.provider.Project mz.Name
      (additionSet d mz R) s).1 with
    | none =>
      simp only [hr, Outcome.ret.injEq] at h1
      rw [← h1.2, ← h1.1]; simp
    | some e =>
      simp only [hr, Outcome.ret.injEq] at h1
      rw [← h1.2, ← h1.1]; simp
  · rw [← h2]; exact (changesCreateDo_state d mz _ s).1
  · rw [← h2]; exact (changesCreateDo_state d mz _ s).2

/-- A call of `deleteRecords` that returns: its value, and the state after. -/
theorem deleteRecords_returns {σ : Type} (d : Deps σ) (mz : ManagedZone) (R dr : List Record)
    (err : Option GoError) (s s1 : State σ)
    (h : deleteRecords d (some mz) R s = (Outcome.ret dr err, s1)) :
    dr = (if err = none then R else [])
    ∧ s1.calls = s.calls ++ [submitCall mz (deletionSet d mz R) s]
    ∧ s1.provider = s.provider := by
  rw [deleteRecords_some] at h
  have h2 := (Prod.mk.inj h).2
  have h1 := (Prod.mk.inj h).1
  refine ⟨?_, ?_, ?_⟩
  · cases hr : (changesCreateDo d s.provider.service s.provider.Project mz.Name
      (deletionSet d mz R) s).1 with
    | none =>
      simp only [hr, Outcome.ret.injEq] at h1
      rw [← h1.2, ← h1.1]; simp
    | some e =>
      simp only [hr, Outcome.ret.injEq] at h1
      rw [← h1.2, ← h1.1]; simp
  · rw [← h2]; exact (changesCreateDo_state d mz _ s).1
  · rw [← h2]; exact (changesCreateDo_state d mz _ s).2

/-- On a zone descriptor neither helper panics. -/
theorem createRecords_no_panic {σ : Type} (d : Deps σ) (mz : ManagedZone) (R : List Record)
    (s : State σ) :
    ∃ cr err, (createRecords d (some mz) R s).1 = Outcome.ret cr err := by
  rw [createRecords_some]
  rcases changesCreateDo d s.provider.service s.provider.Project mz.Name
    (additionSet d mz R) s with ⟨_ | e, s2⟩
  · exact ⟨_, _, rfl⟩
  · exact ⟨_, _, rfl⟩

theorem deleteRecords_no_panic {σ : Type} (d : Deps σ) (mz : ManagedZone) (R : List Record)
    (s : State σ) :
    ∃ dr err, (deleteRecords d (some mz) R s).1 = Outcome.ret dr err := by
  rw [deleteRecords_some]
  rcases changesCreateDo d s.provider.service s.provider.Project mz.Name
    (deletionSet d mz R) s with ⟨_ | e, s2⟩
  · exact ⟨_, _, rfl⟩
  · exact ⟨_, _, rfl⟩

/-! ## AppendRecords -/

/-- The calls of `AppendRecords`, whatever the provider does: the lookup, then
at most a creation, a deletion and a second creation, in that order. -/
theorem AppendRecords_calls {σ : Type} (d : Deps σ) (zone : String) (R : List Record)
    (s : State σ) :
    (AppendRecords d zone R s).2.calls = s.calls ++ [lookupCall zone s]
    ∨ ∃ mz : ManagedZone,
        (AppendRecords d zone R s).2.calls
          = s.calls ++ [lookupCall zone s, submitCall mz (additionSet d mz R) s]
        ∨ (AppendRecords d zone R s).2.calls
          = s.calls ++ [lookupCall zone s, submitCall mz (additionSet d mz R) s,
              submitCall mz (deletionSet d mz R) s]
        ∨ (AppendRecords d zone R s).2.calls
          = s.calls ++ [lookupCall zone s, submitCall mz (additionSet d mz R) s,
              submitCall mz (deletionSet d mz R) s, submitCall mz (additionSet d mz R) s] := by
  have hz := getZone_state d zone s
  rcases hg : getZone d zone s with ⟨⟨z, e⟩, s1⟩
  rw [hg] at hz
  have hl : s1.calls = s.calls ++ [lookupCall zone s] := hz.1
  have hp : s1.provider = s.provider := hz.2
  cases e with
  | some err =>
    left
    simp only [AppendRecords, hg]
    exact hl
  | none =>
    cases z with
    | none =>
      left
      simp only [AppendRecords, hg, createRecords]
      exact hl
    | some mz =>
      right
      refine ⟨mz, ?_⟩
      rcases hc : createRecords d (some mz) R s1 with ⟨o, s2⟩
      cases o with
      | panic msg =>
        obtain ⟨cr, err, h⟩ := createRecords_no_panic d mz R s1
        rw [hc] at h
        cases h
      | ret cr err =>
        have h2 := (createRecords_returns d mz R cr err s1 s2 hc).2.1
        have hp2 : s2.provider = s.provider :=
          (createRecords_returns d mz R cr err s1 s2 hc).2.2.trans hp
        have hadd : s2.calls
            = s.calls ++ [lookupCall zone s, submitCall mz (additionSet d mz R) s] := by
          rw [h2, hl]; simp [submitCall, hp]
        cases err with
        | none =>
          left
          simp only [AppendRecords, hg, hc]
          exact hadd
        | some e1 =>
          cases e1 with
          | errorString text =>
            left
            simp only [AppendRecords, hg, hc]
            exact hadd
          | googleapi Code Message =>
            by_cases h409 : Code = 409
            · right
              rcases hd : deleteRecords d (some mz) R s2 with ⟨o3, s3⟩
              cases o3 with
              | panic msg =>
                obtain ⟨dr, err, h⟩ := deleteRecords_no_panic d mz R s2
                rw [hd] at h
                cases h
              | ret dr err3 =>
                have h3 := (deleteRecords_returns d mz R dr err3 s2 s3 hd).2.1
                have hp3 : s3.provider = s.provider :=
                  (deleteRecords_returns d mz R dr err3 s2 s3 hd).2.2.trans hp2
                have hdel : s3.calls
                    = s.calls ++ [lookupCall zone s, submitCall mz (additionSet d mz R) s,
                        submitCall mz (deletionSet d mz R) s] := by
                  rw [h3, hadd]; simp [submitCall, hp2]
                cases err3 with
                | some e3 =>
                  left
                  simp only [AppendRecords, hg, hc, h409, if_true, hd]
                  exact hdel
                | none =>
                  right
                  rcases hc4 : createRecords d (some mz) R s3 with ⟨o4, s4⟩
                  cases o4 with
                  | panic msg =>
                    obtain ⟨cr4, err, h⟩ := createRecords_no_panic d mz R s3
                    rw [hc4] at h
                    cases h
                  | ret cr4 err4 =>
                    have h4 := (createRecords_returns d mz R cr4 err4 s3 s4 hc4).2.1
                    have hfin : s4.calls
                        = s.calls ++ [lookupCall zone s, submitCall mz (additionSet d mz R) s,
                            submitCall mz (deletionSet d mz R) s,
                            submitCall mz (additionSet d mz R) s] := by
                      rw [h4, hdel]; simp [submitCall, hp3]
                    cases err4 with
                    | none =>
                      simp only [AppendRecords, hg, hc, h409, if_true, hd, hc4]
                      exact hfin
                    | some e4 =>
                      simp only [AppendRecords, hg, hc, h409, if_true, hd, hc4]
                      exact hfin
            · left
              simp only [AppendRecords, hg, hc, h409, if_false]
              exact hadd

/-- A first creation that fails with a status error other than 409: the error
is returned unchanged, with no records, after the lookup and the one
submission. -/
theorem AppendRecords_status_error {σ : Type} (d : Deps σ) (zone : String)
    (R cr : List Record) (mz : ManagedZone) (s s1 s2 : State σ) (Code : Int) (m : String)
    (hzone : getZone d zone s = ((some mz, none), s1))
    (hcreate : createRecords d (some mz) R s1
      = (Outcome.ret cr (some (GoError.googleapi Code m)), s2))
    (hcode : Code ≠ 409) :
    AppendRecords d zone R s = (Outcome.ret [] (some (GoError.googleapi Code m)), s2)
    ∧ s2.calls = s.calls ++ [lookupCall zone s, submitCall mz (additionSet d mz R) s] := by
  have hz := getZone_state d zone s
  rw [hzone] at hz
  have hl : s1.calls = s.calls ++ [lookupCall zone s] := hz.1
  have hp : s1.provider = s.provider := hz.2
  have hc := createRecords_returns d mz R cr _ s1 s2 hcreate
  refine ⟨?_, ?_⟩
  · simp only [AppendRecords, hzone, hcreate, hcode, if_false]
  · rw [hc.2.1, hl]; simp [submitCall, hp]

/-- A first creation that fails with an error that is not a `*googleapi.Error`:
the type assertion panics, after the lookup and the one submission. -/
theorem AppendRecords_other_error {σ : Type} (d : Deps σ) (zone : String)
    (R cr : List Record) (mz : ManagedZone) (s s1 s2 : State σ) (text : String)
    (hzone : getZone d zone s = ((some mz, none), s1))
    (hcreate : createRecords d (some mz) R s1
      = (Outcome.ret cr (some (GoError.errorString text)), s2)) :
    AppendRecords d zone R s = (Outcome.panic interfaceConversion, s2)
    ∧ s2.calls = s.calls ++ [lookupCall zone s, submitCall mz (additionSet d mz R) s] := by
  have hz := getZone_state d zone s
  rw [hzone] at hz
  have hl : s1.calls = s.calls ++ [lookupCall zone s] := hz.1
  have hp : s1.provider = s.provider := hz.2
  have hc := createRecords_returns d mz R cr _ s1 s2 hcreate
  refine ⟨?_, ?_⟩
  · simp only [AppendRecords, hzone, hcreate]
  · rw [hc.2.1, hl]; simp [submitCall, hp]

/-- C3. The zone lookup succeeds and the first creation fails with a plain
network error: `AppendRecords` does not return that error, it panics in the
type assertion (after one submission, with no deletion). -/
theorem AppendRecords_transport_error_panics :
    getZone refusedDeps "example.com." startState
      = ((some exampleZone, none), afterLookup refusedDeps)
    ∧ createRecords refusedDeps (some exampleZone) [wwwRecord] (afterLookup refusedDeps)
      = (Outcome.ret [] (some (GoError.errorString "dial tcp: connection refused")),
         afterCreate refusedDeps)
    ∧ AppendRecords refusedDeps "example.com." [wwwRecord] startState
      = (Outcome.panic interfaceConversion, afterCreate refusedDeps)
    ∧ (AppendRecords refusedDeps "example.com." [wwwRecord] startState).1
      ≠ Outcome.ret [] (some (GoError.errorString "dial tcp: connection refused"))
    ∧ changeSets (AppendRecords refusedDeps "example.com." [wwwRecord] startState).2.calls
      = [additionSet refusedDeps exampleZone [wwwRecord]] := by
  refine ⟨rfl, rfl, rfl, ?_, rfl⟩
  decide

/-- C4. Whatever the provider does, `AppendRecords` submits at most two
addition change-sets and at most one deletion change-set. When the first
creation conflicts and the deletion fails, the deletion's error is returned
with no records and no re-creation is attempted; when the deletion succeeds and
the retried creation fails, with any error, the retry's error is returned with
no records and nothing further is submitted. -/
theorem AppendRecords_at_most_one_retry {σ : Type} (d : Deps σ) (zone : String)
    (R cr dr cr2 : List Record) (mz : ManagedZone) (s s1 s2 s3 s4 : State σ) (m : String)
    (e : GoError) :
    (∃ new : List Call, (AppendRecords d zone R s).2.calls = s.calls ++ new
      ∧ additionCount new ≤ 2 ∧ deletionCount new ≤ 1)
    ∧ (getZone d zone s = ((some mz, none), s1) →
       createRecords d (some mz) R s1
         = (Outcome.ret cr (some (GoError.googleapi 409 m)), s2) →
       (deleteRecords d (some mz) R s2 = (Outcome.ret dr (some e), s3) →
          AppendRecords d zone R s = (Outcome.ret [] (some e), s3)
          ∧ s3.calls = s.calls ++ [lookupCall zone s, submitCall mz (additionSet d mz R) s,
              submitCall mz (deletionSet d mz R) s])
       ∧ (deleteRecords d (some mz) R s2 = (Outcome.ret dr none, s3) →
          createRecords d (some mz) R s3 = (Outcome.ret cr2 (some e), s4) →
          AppendRecords d zone R s = (Outcome.ret [] (some e), s4)
          ∧ s4.calls = s.calls ++ [lookupCall zone s, submitCall mz (additionSet d mz R) s,
              submitCall mz (deletionSet d mz R) s, submitCall mz (additionSet d mz R) s])) := by
  refine ⟨?_, ?_⟩
  · rcases AppendRecords_calls d zone R s with h | ⟨z, h | h | h⟩
    · exact ⟨_, h, by simp [additionCount, deletionCount, changeSets, lookupCall]⟩
    · exact ⟨_, h, by
        simp [additionCount, deletionCount, changeSets, lookupCall, submitCall, additionSet]⟩
    · exact ⟨_, h, by
        simp [additionCount, deletionCount, changeSets, lookupCall, submitCall, additionSet,
          deletionSet]⟩
    · exact ⟨_, h, by
        simp [additionCount, deletionCount, changeSets, lookupCall, submitCall, additionSet,
          deletionSet]⟩
  · intro hzone hconflict
    have hz := getZone_state d zone s
    rw [hzone] at hz
    have hl : s1.calls = s.calls ++ [lookupCall zone s] := hz.1
    have hp : s1.provider = s.provider := hz.2
    have hc := createRecords_returns d mz R cr _ s1 s2 hconflict
    have hp2 : s2.provider = s.provider := hc.2.2.trans hp
    have hadd : s2.calls
        = s.calls ++ [lookupCall zone s, submitCall mz (additionSet d mz R) s] := by
      rw [hc.2.1, hl]; simp [submitCall, hp]
    refine ⟨?_, ?_⟩
    · intro hd
      have hr3 := deleteRecords_returns d mz R dr _ s2 s3 hd
      refine ⟨?_, ?_⟩
      · simp only [AppendRecords, hzone, hconflict, if_true, hd]
      · rw [hr3.2.1, hadd]; simp [submitCall, hp2]
    · intro hd hc4
      have hr3 := deleteRecords_returns d mz R dr _ s2 s3 hd
      have hp3 : s3.provider = s.provider := hr3.2.2.trans hp2
      have hdel : s3.calls
          = s.calls ++ [lookupCall zone s, submitCall mz (additionSet d mz R) s,
              submitCall mz (deletionSet d mz R) s] := by
        rw [hr3.2.1, hadd]; simp [submitCall, hp2]
      have hr4 := createRecords_returns d mz R cr2 _ s3 s4 hc4
      refine ⟨?_, ?_⟩
      · simp only [AppendRecords, hzone, hconflict, if_true, hd, hc4]
      · rw [hr4.2.1, hdel]; simp [submitCall, hp3]

/-- C4 at the zone `example.com.`: a second conflict after the deletion is
returned, after two addition change-sets and one deletion change-set; a
rejected deletion is returned, after one of each. -/
theorem AppendRecords_at_most_one_retry_witness :
    (AppendRecords secondConflictDeps "example.com." [wwwRecord] startState
        = (Outcome.ret [] (some conflict), afterRetry secondConflictDeps)
      ∧ changeSets (afterRetry secondConflictDeps).calls
        = [additionSet secondConflictDeps exampleZone [wwwRecord],
           deletionSet secondConflictDeps exampleZone [wwwRecord],
           additionSet secondConflictDeps exampleZone [wwwRecord]])
    ∧ (AppendRecords rejectedDeletionDeps "example.com." [wwwRecord] startState
        = (Outcome.ret [] (some notFound), afterDelete rejectedDeletionDeps)
      ∧ changeSets (afterDelete rejectedDeletionDeps).calls
        = [additionSet rejectedDeletionDeps exampleZone [wwwRecord],
           deletionSet rejectedDeletionDeps exampleZone [wwwRecord]]) :=
  ⟨⟨(((AppendRecords_at_most_one_retry secondConflictDeps "example.com." [wwwRecord] []
        [wwwRecord] [] exampleZone startState (afterLookup secondConflictDeps)
        (afterCreate secondConflictDeps) (afterDelete secondConflictDeps)
        (afterRetry secondConflictDeps) "alreadyExists" conflict).2 rfl rfl).2 rfl rfl).1,
     rfl⟩,
   ⟨(((AppendRecords_at_most_one_retry rejectedDeletionDeps "example.com." [wwwRecord] []
        [] [] exampleZone startState (afterLookup rejectedDeletionDeps)
        (afterCreate rejectedDeletionDeps) (afterDelete rejectedDeletionDeps)
        (afterDelete rejectedDeletionDeps) "alreadyExists" notFound).2 rfl rfl).1 rfl).1,
     rfl⟩⟩

/-! ## GetRecords and SetRecords -/

/-- C5. In every state, `GetRecords` and `SetRecords` return no records and a
non-nil "not implemented" error, and the state after is the state before: no
call on the SDK, the same provider, the same remote. -/
theorem GetRecords_SetRecords_not_implemented {σ : Type} (zone : String) (R : List Record)
    (s : State σ) :
    GetRecords zone s
      = (Outcome.ret [] (some (GoError.errorString "TODO: not implemented1")), s)
    ∧ SetRecords zone R s
      = (Outcome.ret [] (some (GoError.errorString "TODO: SetRecords not implemented")), s)
    ∧ (GetRecords zone s).2.calls = s.calls
    ∧ (SetRecords zone R s).2.calls = s.calls
    ∧ (GetRecords zone s).2.provider = s.provider
    ∧ (SetRecords zone R s).2.provider = s.provider :=
  ⟨rfl, rfl, rfl, rfl, rfl, rfl⟩

/-! ## NewSession -/

/-- With a credentials file, `NewSession` builds the service from that file,
returns the construction's error when there is one, and stores the handle
otherwise. -/
theorem NewSession_credentials_file {σ : Type} (d : Deps σ) (s : State σ)
    (hpath : s.provider.JsonKeyFile ≠ "") :
    (NewSession d s).2.calls
      = s.calls ++ [Call.NewService [ClientOption.WithCredentialsFile s.provider.JsonKeyFile]]
    ∧ (∀ service e,
        (d.NewService [ClientOption.WithCredentialsFile s.provider.JsonKeyFile] s.remote).1
          = (service, some e) →
        (NewSession d s).1 = some e ∧ (NewSession d s).2.provider = s.provider)
    ∧ (∀ service,
        (d.NewService [ClientOption.WithCredentialsFile s.provider.JsonKeyFile] s.remote).1
          = (service, none) →
        (NewSession d s).1 = none ∧ (NewSession d s).2.provider.service = service) := by
  unfold NewSession
  rw [if_pos hpath]
  simp only [dnsNewService]
  rcases d.NewService [ClientOption.WithCredentialsFile s.provider.JsonKeyFile] s.remote
    with ⟨⟨service, err⟩, r⟩
  cases err with
  | none => simp
  | some e => simp

/-- Without a credentials file, `NewSession` builds the service from the
ambient credentials and returns no error, whatever the construction returned;
it stores the returned handle only when the construction failed. -/
theorem NewSession_default_credentials {σ : Type} (d : Deps σ) (s : State σ)
    (hpath : s.provider.JsonKeyFile = "") :
    (NewSession d s).2.calls = s.calls ++ [Call.NewService []]
    ∧ (NewSession d s).1 = none
    ∧ (∀ service e, (d.NewService [] s.remote).1 = (service, some e) →
        (NewSession d s).2.provider.service = service)
    ∧ (∀ service, (d.NewService [] s.remote).1 = (service, none) →
        (NewSession d s).2.provider = s.provider) := by
  unfold NewSession
  rw [if_neg (not_not.mpr hpath)]
  simp only [dnsNewService]
  rcases d.NewService [] s.remote with ⟨⟨service, err⟩, r⟩
  cases err with
  | none => simp
  | some e => simp

/-- C6. No credentials file, and the service construction fails with an
error: `NewSession` returns no error (and stores the nil handle). -/
theorem NewSession_swallows_error :
    (freshState "").provider.JsonKeyFile = ""
    ∧ (dnsNewService noCredentialsDeps [] (freshState "")).1 = (none, some credentialsError)
    ∧ (NewSession noCredentialsDeps (freshState "")).1 = none
    ∧ (NewSession noCredentialsDeps (freshState "")).1 ≠ some credentialsError
    ∧ (NewSession noCredentialsDeps (freshState "")).2.provider.service = none
    ∧ (NewSession noCredentialsDeps (freshState "")).2.calls = [Call.NewService []] := by
  refine ⟨rfl, rfl, rfl, ?_, rfl, rfl⟩
  decide

/-- C7. No credentials file, and the service construction succeeds with the
handle 7 (from the ambient credentials: no option is passed): `NewSession`
returns no error and the stored handle is still nil. -/
theorem NewSession_drops_handle :
    (freshState "").provider.JsonKeyFile = ""
    ∧ (dnsNewService sessionDeps [] (freshState "")).1 = (some { handle := 7 }, none)
    ∧ (NewSession sessionDeps (freshState "")).1 = none
    ∧ (NewSession sessionDeps (freshState "")).2.provider.service = none
    ∧ (NewSession sessionDeps (freshState "")).2.provider.service ≠ some { handle := 7 }
    ∧ (NewSession sessionDeps (freshState "")).2.calls = [Call.NewService []] := by
  refine ⟨rfl, rfl, rfl, rfl, ?_, rfl⟩
  decide

/-! ## DeleteRecords -/

/-- A listing whose one element is a nil pointer: `getZone` returns the nil
descriptor with no error, and `DeleteRecords` and `AppendRecords` dereference
it and panic, with nothing submitted. -/
theorem getZone_nil_element :
    getZone nilZoneDeps "example.com." startState = ((none, none), afterLookup nilZoneDeps)
    ∧ DeleteRecords nilZoneDeps "example.com." [wwwRecord] startState
      = (Outcome.panic nilDereference, afterLookup nilZoneDeps)
    ∧ AppendRecords nilZoneDeps "example.com." [wwwRecord] startState
      = (Outcome.panic nilDereference, afterLookup nilZoneDeps)
    ∧ changeSets (afterLookup nilZoneDeps).calls = [] :=
  ⟨rfl, rfl, rfl, rfl⟩

/-! ## The change-sets of createRecords and deleteRecords -/

/-- C9. For every zone descriptor and every list of records, `createRecords`
submits a change-set with one addition per record and no deletions; the i-th
addition has the i-th record's type, the name `AbsoluteName` gives for the
record's name and the zone's DNS name, the one value of the record, and the
record's TTL. `deleteRecords` submits the same resource-record-sets as
deletions, with no additions. -/
theorem createRecords_deleteRecords_changeSets {σ : Type} (d : Deps σ) (mz : ManagedZone)
    (R : List Record) (s : State σ) :
    ∃ rrsets : List ResourceRecordSet,
      (createRecords d (some mz) R s).2.calls
        = s.calls ++ [submitCall mz { Additions := some rrsets, Deletions := none } s]
      ∧ (deleteRecords d (some mz) R s).2.calls
        = s.calls ++ [submitCall mz { Additions := none, Deletions := some rrsets } s]
      ∧ rrsets.length = R.length
      ∧ ∀ i : Nat, rrsets[i]? = (R[i]?).map (fun record =>
          { Type_ := record.Type_
            Name := d.AbsoluteName record.Name mz.DnsName
            Rrdatas := [record.Value]
            Ttl := record.TTL }) := by
  refine ⟨R.map (specResourceRecordSet d mz), ?_, ?_, ?_, ?_⟩
  · rw [createRecords_some]; rfl
  · rw [deleteRecords_some]; rfl
  · simp
  · intro i
    simp only [List.getElem?_map]
    rfl

/-- C10. The `Ttl` that `createRecords` and `deleteRecords` submit for a record
is the record's `time.Duration` as an integer, its count of nanoseconds: a TTL
of 300 seconds is submitted as 300000000000, not as 300. -/
theorem createRecords_deleteRecords_ttl_nanoseconds {σ : Type} (d : Deps σ) (mz : ManagedZone)
    (R : List Record) (r : Record) (s : State σ) :
    (∃ rrsets : List ResourceRecordSet,
      changeSets (createRecords d (some mz) R s).2.calls
        = changeSets s.calls ++ [{ Additions := some rrsets, Deletions := none }]
      ∧ changeSets (deleteRecords d (some mz) R s).2.calls
        = changeSets s.calls ++ [{ Additions := none, Deletions := some rrsets }]
      ∧ rrsets.map (fun rrset => rrset.Ttl) = R.map (fun record => record.TTL))
    ∧ (∃ rrset : ResourceRecordSet,
      changeSets (createRecords d (some mz) [{ r with TTL := 300 * Second }] s).2.calls
        = changeSets s.calls ++ [{ Additions := some [rrset], Deletions := none }]
      ∧ changeSets (deleteRecords d (some mz) [{ r with TTL := 300 * Second }] s).2.calls
        = changeSets s.calls ++ [{ Additions := none, Deletions := some [rrset] }]
      ∧ rrset.Ttl = 300000000000 ∧ rrset.Ttl ≠ 300) := by
  have happ : ∀ (cs : List Call) (c : Call) (change : Change),
      changeSets [c] = [change] → changeSets (cs ++ [c]) = changeSets cs ++ [change] := by
    intro cs c change hc
    induction cs with
    | nil => simpa using hc
    | cons x rest ih => cases x <;> simp [changeSets, ih]
  refine ⟨⟨R.map (specResourceRecordSet d mz), ?_, ?_, ?_⟩,
    ⟨specResourceRecordSet d mz { r with TTL := 300 * Second }, ?_, ?_, ?_, ?_⟩⟩
  · rw [createRecords_some]; exact happ _ _ _ rfl
  · rw [deleteRecords_some]; exact happ _ _ _ rfl
  · simp [specResourceRecordSet]
  · rw [createRecords_some]; exact happ _ _ _ rfl
  · rw [deleteRecords_some]; exact happ _ _ _ rfl
  · simp [specResourceRecordSet, Second, Millisecond, Microsecond, Nanosecond]
  · simp [specResourceRecordSet, Second, Millisecond, Microsecond, Nanosecond]

end Clouddns
